import Mathlib

/-!
Verification development for the procedural fireball renderer.

The definitions below are shallow embeddings of the repository's code:
the GLSL vertex shader (hash noise, value noise, fbm, the three-pass
displacement model), the TypeScript frame loop (orbit camera, lagged up
vector, audio-reactive parameter modulation, beat detection) and the
audio-capture teardown.  GLSL/JS floating-point arithmetic is modelled
over the exact rationals; the transcendental primitives (sin, cos, exp,
pow, sqrt) that the shader and the frame loop use are passed in as an
abstract record of rational functions, so every statement proved about
them holds for any interpretation of those primitives.
-/

namespace Fireball

/-- GLSL fract: fractional part of a rational, in [0,1). -/
def fractQ (q : ℚ) : ℚ := q - (⌊q⌋ : ℤ)

/-- GLSL mix(x, y, a) = x·(1−a) + y·a. -/
def mixQ (a b t : ℚ) : ℚ := a * (1 - t) + b * t

/-- GLSL clamp(x, lo, hi) = min(max(x, lo), hi). -/
def clampQ (x lo hi : ℚ) : ℚ := min (max x lo) hi

/-- GLSL smoothstep(e0, e1, x). -/
def smoothstepQ (e0 e1 x : ℚ) : ℚ :=
  let t := clampQ ((x - e0) / (e1 - e0)) 0 1
  t * t * (3 - 2 * t)

/-- A 3-component rational vector (GLSL vec3). -/
structure Vec3 where
  x : ℚ
  y : ℚ
  z : ℚ
  deriving DecidableEq

/-- A 2-component rational vector (GLSL vec2). -/
structure Vec2 where
  x : ℚ
  y : ℚ
  deriving DecidableEq

instance : Add Vec3 := ⟨fun a b => ⟨a.x + b.x, a.y + b.y, a.z + b.z⟩⟩

instance : Sub Vec3 := ⟨fun a b => ⟨a.x - b.x, a.y - b.y, a.z - b.z⟩⟩

instance : Add Vec2 := ⟨fun a b => ⟨a.x + b.x, a.y + b.y⟩⟩

instance : Sub Vec2 := ⟨fun a b => ⟨a.x - b.x, a.y - b.y⟩⟩

@[simp] theorem vec3_add_def (a b : Vec3) : a + b = ⟨a.x + b.x, a.y + b.y, a.z + b.z⟩ := rfl

@[simp] theorem vec3_sub_def (a b : Vec3) : a - b = ⟨a.x - b.x, a.y - b.y, a.z - b.z⟩ := rfl

@[simp] theorem vec2_add_def (a b : Vec2) : a + b = ⟨a.x + b.x, a.y + b.y⟩ := rfl

@[simp] theorem vec2_sub_def (a b : Vec2) : a - b = ⟨a.x - b.x, a.y - b.y⟩ := rfl

/-- vec3 · scalar. -/
def Vec3.scale (a : Vec3) (s : ℚ) : Vec3 := ⟨a.x * s, a.y * s, a.z * s⟩

/-- vec3 + scalar (GLSL componentwise broadcast). -/
def Vec3.addScalar (a : Vec3) (s : ℚ) : Vec3 := ⟨a.x + s, a.y + s, a.z + s⟩

/-- vec2 + scalar (GLSL componentwise broadcast). -/
def Vec2.addScalar (a : Vec2) (s : ℚ) : Vec2 := ⟨a.x + s, a.y + s⟩

/-- GLSL dot for vec3. -/
def Vec3.dot (a b : Vec3) : ℚ := a.x * b.x + a.y * b.y + a.z * b.z

/-- GLSL dot for vec2. -/
def Vec2.dot (a b : Vec2) : ℚ := a.x * b.x + a.y * b.y

/-- GLSL swizzle .yzx. -/
def Vec3.yzx (a : Vec3) : Vec3 := ⟨a.y, a.z, a.x⟩

/-- GLSL fract applied componentwise. -/
def Vec3.fractV (a : Vec3) : Vec3 := ⟨fractQ a.x, fractQ a.y, fractQ a.z⟩

/-- GLSL floor applied componentwise. -/
def Vec3.floorV (a : Vec3) : Vec3 := ⟨(⌊a.x⌋ : ℤ), (⌊a.y⌋ : ℤ), (⌊a.z⌋ : ℤ)⟩

/-- GLSL cross product. -/
def Vec3.cross (a b : Vec3) : Vec3 :=
  ⟨a.y * b.z - a.z * b.y, a.z * b.x - a.x * b.z, a.x * b.y - a.y * b.x⟩

/-- GLSL mix on vec3 (componentwise, scalar weight). -/
def mix3 (a b : Vec3) (t : ℚ) : Vec3 := ⟨mixQ a.x b.x t, mixQ a.y b.y t, mixQ a.z b.z t⟩

/-- The shader's hash, h31 in fireball-vert.glsl:
p = fract(p·0.3183099 + (0.1,0.2,0.3)); p += dot(p, p.yzx + 19.19);
return fract(p.x·p.y·p.z·93.733). -/
def h31 (p : Vec3) : ℚ :=
  let q := Vec3.fractV (p.scale 0.3183099 + ⟨0.1, 0.2, 0.3⟩)
  let r := q.addScalar (Vec3.dot q (q.yzx.addScalar 19.19))
  fractQ (r.x * r.y * r.z * 93.733)

/-- The shader's value noise, vnoise in fireball-vert.glsl: trilinear
blend of h31 at the 8 lattice corners with weights u = f·f·(3−2f). -/
def vnoise (p : Vec3) : ℚ :=
  let i := p.floorV
  let f := p.fractV
  let u : Vec3 := ⟨f.x * f.x * (3 - 2 * f.x), f.y * f.y * (3 - 2 * f.y),
    f.z * f.z * (3 - 2 * f.z)⟩
  let n000 := h31 (i + ⟨0, 0, 0⟩)
  let n100 := h31 (i + ⟨1, 0, 0⟩)
  let n010 := h31 (i + ⟨0, 1, 0⟩)
  let n110 := h31 (i + ⟨1, 1, 0⟩)
  let n001 := h31 (i + ⟨0, 0, 1⟩)
  let n101 := h31 (i + ⟨1, 0, 1⟩)
  let n011 := h31 (i + ⟨0, 1, 1⟩)
  let n111 := h31 (i + ⟨1, 1, 1⟩)
  let nx00 := mixQ n000 n100 u.x
  let nx10 := mixQ n010 n110 u.x
  let nxy0 := mixQ nx00 nx10 u.y
  let nx01 := mixQ n001 n101 u.x
  let nx11 := mixQ n011 n111 u.x
  let nxy1 := mixQ nx01 nx11 u.y
  mixQ nxy0 nxy1 u.z

/-- Reference trilinear interpolation, written from the specification's
words: the sum over the 8 surrounding lattice corners of h31 at the
corner times the product of per-axis weights w(t) = 3t²−2t³ (weight w on
the far corner, 1−w on the near corner).  Used only to compare against
the shader's vnoise. -/
def valueNoise3Spec (p : Vec3) : ℚ :=
  let i := p.floorV
  let f := p.fractV
  let wx := 3 * f.x ^ 2 - 2 * f.x ^ 3
  let wy := 3 * f.y ^ 2 - 2 * f.y ^ 3
  let wz := 3 * f.z ^ 2 - 2 * f.z ^ 3
  h31 (i + ⟨0, 0, 0⟩) * ((1 - wx) * (1 - wy) * (1 - wz)) +
  h31 (i + ⟨1, 0, 0⟩) * (wx * (1 - wy) * (1 - wz)) +
  h31 (i + ⟨0, 1, 0⟩) * ((1 - wx) * wy * (1 - wz)) +
  h31 (i + ⟨1, 1, 0⟩) * (wx * wy * (1 - wz)) +
  h31 (i + ⟨0, 0, 1⟩) * ((1 - wx) * (1 - wy) * wz) +
  h31 (i + ⟨1, 0, 1⟩) * (wx * (1 - wy) * wz) +
  h31 (i + ⟨0, 1, 1⟩) * ((1 - wx) * wy * wz) +
  h31 (i + ⟨1, 1, 1⟩) * (wx * wy * wz)

/-- The fbm loop of fireball-vert.glsl:
for(i=0;i<8;i++){ if(i>=oct) break; s += a·vnoise(p·f); f *= 2.02; a *= 0.5; }
modelled with explicit fuel (8 at the top call). -/
def fbmLoop (p : Vec3) (oct : ℤ) : Nat → Nat → ℚ → ℚ → ℚ → ℚ
  | 0, _, _, _, s => s
  | fuel + 1, i, a, f, s =>
    if (i : ℤ) ≥ oct then s
    else fbmLoop p oct fuel (i + 1) (a * 0.5) (f * 2.02) (s + a * vnoise (p.scale f))

/-- The shader's fbm: amplitude seed 0.5, frequency seed 1, at most 8
octaves, early exit when the octave index reaches oct. -/
def fbm (p : Vec3) (oct : ℤ) : ℚ := fbmLoop p oct 8 0 0.5 1 0

/-- Number of octaves the fbm loop actually executes. -/
def octIter (k : ℤ) : Nat := min 8 k.toNat

/-! ## The vertex shader main(), fireball-vert.glsl

The transcendental primitives are abstract rational functions: every
theorem below holds for any interpretation of sin, cos, exp, pow, sqrt. -/

/-- Abstract interpretations of the GLSL builtins the shader and the frame
loop use. -/
structure Prims where
  psin : ℚ → ℚ
  pcos : ℚ → ℚ
  pexp : ℚ → ℚ
  ppow : ℚ → ℚ → ℚ
  psqrt : ℚ → ℚ

/-- GLSL length for vec3, via the abstract sqrt. -/
def glslLength3 (pr : Prims) (v : Vec3) : ℚ := pr.psqrt (Vec3.dot v v)

/-- GLSL length for vec2, via the abstract sqrt. -/
def glslLength2 (pr : Prims) (v : Vec2) : ℚ := pr.psqrt (Vec2.dot v v)

/-- GLSL normalize for vec3 (v / length(v); division by zero yields the
zero vector under the rational convention 1/0 = 0). -/
def glslNormalize3 (pr : Prims) (v : Vec3) : Vec3 := v.scale (1 / glslLength3 pr v)

/-- GLSL normalize for vec2. -/
def glslNormalize2 (pr : Prims) (v : Vec2) : Vec2 :=
  ⟨v.x * (1 / glslLength2 pr v), v.y * (1 / glslLength2 pr v)⟩

/-- A homogeneous 4-vector. -/
abbrev Vec4 := Fin 4 → ℚ

/-- vec4(v, w). -/
def toVec4 (v : Vec3) (w : ℚ) : Vec4 := ![v.x, v.y, v.z, w]

/-- 4×4 matrix over the rationals (column-major detail is irrelevant: the
embedding only multiplies matrices and applies them to vectors). -/
abbrev Mat4 := Matrix (Fin 4) (Fin 4) ℚ

/-- Matrix · vec4. -/
def mat4App (m : Mat4) (v : Vec4) : Vec4 := Matrix.mulVec m v

/-- The uniforms of fireball-vert.glsl. -/
structure Uniforms where
  uModel : Mat4
  uViewProj : Mat4
  uTime : ℚ
  uOctaves : ℤ
  uCoreLowAmp : ℚ
  uCoreHiAmp : ℚ
  uCoreScale : ℚ
  uFlameNoiseScale : ℚ
  uFlameHiAmp : ℚ
  uFlameLift : ℚ
  uUpDir : Vec3
  uMouseNDC : Vec2
  uMouseStrength : ℚ
  uMouseFalloff : ℚ
  uMouseOn : ℤ
  uShellOffset : ℚ
  uGlowOffset : ℚ
  uSceneScale : ℚ
  uPass : ℤ

/-- n = normalize(p + 1e-6). -/
def shN (pr : Prims) (p : Vec3) : Vec3 := glslNormalize3 pr (p.addScalar 0.000001)

/-- Up = normalize(u_UpDir). -/
def shUp (pr : Prims) (u : Uniforms) : Vec3 := glslNormalize3 pr u.uUpDir

/-- lowStatic = 0.70·sin(0.85·p.y) + 0.50·cos(0.60·p.z) + 0.40·sin(0.60·p.x). -/
def lowStatic (pr : Prims) (p : Vec3) : ℚ :=
  0.70 * pr.psin (0.85 * p.y) + 0.50 * pr.pcos (0.60 * p.z) + 0.40 * pr.psin (0.60 * p.x)

/-- coreDisp = u_CoreLowAmp·lowStatic + u_CoreHiAmp·(vnoise(p·6) − 0.5). -/
def coreDisp (pr : Prims) (u : Uniforms) (p : Vec3) : ℚ :=
  u.uCoreLowAmp * lowStatic pr p + u.uCoreHiAmp * (vnoise (p.scale 6) - 0.5)

/-- baseDisp: coreDisp, overridden per pass by the two sequential ifs. -/
def baseDisp (pr : Prims) (u : Uniforms) (p : Vec3) : ℚ :=
  let b1 := if u.uPass = 1 then coreDisp pr u p + u.uShellOffset else coreDisp pr u p
  if u.uPass = 2 then coreDisp pr u p + u.uGlowOffset else b1

/-- basePos = p + n·baseDisp. -/
def basePos (pr : Prims) (u : Uniforms) (p : Vec3) : Vec3 :=
  p + (shN pr p).scale (baseDisp pr u p)

/-- baseScale = (u_Pass == 0) ? u_SceneScale·u_CoreScale : u_SceneScale. -/
def baseScale (u : Uniforms) : ℚ :=
  if u.uPass = 0 then u.uSceneScale * u.uCoreScale else u.uSceneScale

/-- baseClip = u_ViewProj · u_Model · vec4(basePos·baseScale, 1). -/
def baseClip (pr : Prims) (u : Uniforms) (p : Vec3) : Vec4 :=
  mat4App (u.uViewProj * u.uModel) (toVec4 ((basePos pr u p).scale (baseScale u)) 1)

/-- ndc = baseClip.xy / baseClip.w. -/
def ndcOf (pr : Prims) (u : Uniforms) (p : Vec3) : Vec2 :=
  ⟨baseClip pr u p 0 / baseClip pr u p 3, baseClip pr u p 1 / baseClip pr u p 3⟩

/-- fall = max(u_MouseFalloff, 1e-4). -/
def fallOf (u : Uniforms) : ℚ := max u.uMouseFalloff 0.0001

/-- d = length(ndc − u_MouseNDC). -/
def mouseDist (pr : Prims) (u : Uniforms) (p : Vec3) : ℚ :=
  glslLength2 pr (ndcOf pr u p - u.uMouseNDC)

/-- infl = exp(−(d/fall)²). -/
def inflOf (pr : Prims) (u : Uniforms) (p : Vec3) : ℚ :=
  pr.pexp (-((mouseDist pr u p / fallOf u) * (mouseDist pr u p / fallOf u)))

/-- mouseGate = (u_MouseOn == 1) ? 1 : 0. -/
def mouseGate (u : Uniforms) : ℚ := if u.uMouseOn = 1 then 1 else 0

/-- a = (|n.y| < 0.99) ? (0,1,0) : (1,0,0). -/
def frameA (pr : Prims) (p : Vec3) : Vec3 :=
  if |(shN pr p).y| < 0.99 then ⟨0, 1, 0⟩ else ⟨1, 0, 0⟩

/-- t1 = normalize(cross(n, a)). -/
def tangent1 (pr : Prims) (p : Vec3) : Vec3 :=
  glslNormalize3 pr (Vec3.cross (shN pr p) (frameA pr p))

/-- t2 = normalize(cross(n, t1)). -/
def tangent2 (pr : Prims) (p : Vec3) : Vec3 :=
  glslNormalize3 pr (Vec3.cross (shN pr p) (tangent1 pr p))

/-- toMouse2D = normalize(u_MouseNDC − ndc + 1e-6). -/
def toMouse2D (pr : Prims) (u : Uniforms) (p : Vec3) : Vec2 :=
  glslNormalize2 pr ((u.uMouseNDC - ndcOf pr u p).addScalar 0.000001)

/-- toMouseWorld = normalize(toMouse2D.x·t1 + toMouse2D.y·t2). -/
def toMouseWorld (pr : Prims) (u : Uniforms) (p : Vec3) : Vec3 :=
  glslNormalize3 pr
    ((tangent1 pr p).scale (toMouse2D pr u p).x + (tangent2 pr p).scale (toMouse2D pr u p).y)

/-- attract = mouseGate·infl·clamp(u_MouseStrength, 0, 2). -/
def attract (pr : Prims) (u : Uniforms) (p : Vec3) : ℚ :=
  mouseGate u * inflOf pr u p * clampQ u.uMouseStrength 0 2

/-- UpDeform = normalize(mix(Up, toMouseWorld, (u_Pass == 0) ? 0 : attract)). -/
def upDeform (pr : Prims) (u : Uniforms) (p : Vec3) : Vec3 :=
  glslNormalize3 pr
    (mix3 (shUp pr u) (toMouseWorld pr u p) (if u.uPass = 0 then 0 else attract pr u p))

/-- upDot = clamp(dot(n, UpDeform), 0, 1). -/
def upDotOf (pr : Prims) (u : Uniforms) (p : Vec3) : ℚ :=
  clampQ (Vec3.dot (shN pr p) (upDeform pr u p)) 0 1

/-- topWeight = pow(upDot, 1.6). -/
def topWeight (pr : Prims) (u : Uniforms) (p : Vec3) : ℚ :=
  pr.ppow (upDotOf pr u p) 1.6

/-- fBM = fbm(p·u_FlameNoiseScale + UpDeform·(0.7·u_Time), u_Octaves). -/
def fBMOf (pr : Prims) (u : Uniforms) (p : Vec3) : ℚ :=
  fbm (p.scale u.uFlameNoiseScale + (upDeform pr u p).scale (0.7 * u.uTime)) u.uOctaves

/-- flameDisp = coreDisp + topWeight·(u_FlameHiAmp·(fBM − 0.5) + u_FlameLift). -/
def flameDisp (pr : Prims) (u : Uniforms) (p : Vec3) : ℚ :=
  coreDisp pr u p + topWeight pr u p * (u.uFlameHiAmp * (fBMOf pr u p - 0.5) + u.uFlameLift)

/-- extra = (u_Pass == 0) ? 0 : toMouseWorld·(0.12·attract). -/
def extraOf (pr : Prims) (u : Uniforms) (p : Vec3) : Vec3 :=
  if u.uPass = 0 then ⟨0, 0, 0⟩ else (toMouseWorld pr u p).scale (0.12 * attract pr u p)

/-- disp: coreDisp, overridden per pass by the two sequential ifs. -/
def dispOf (pr : Prims) (u : Uniforms) (p : Vec3) : ℚ :=
  let d1 := if u.uPass = 1 then flameDisp pr u p + u.uShellOffset else coreDisp pr u p
  if u.uPass = 2 then flameDisp pr u p + u.uGlowOffset else d1

/-- displaced = p + n·disp + extra. -/
def displacedOf (pr : Prims) (u : Uniforms) (p : Vec3) : Vec3 :=
  p + (shN pr p).scale (dispOf pr u p) + extraOf pr u p

/-- r = length(displaced). -/
def rOf (pr : Prims) (u : Uniforms) (p : Vec3) : ℚ := glslLength3 pr (displacedOf pr u p)

/-- The shader's outputs: the varyings and gl_Position. -/
structure VertexOut where
  vPos : Vec3
  vCore : ℚ
  vHeight : ℚ
  vRadial : ℚ
  vRim : ℚ
  vGrain : ℚ
  vUpDot : ℚ
  glPosition : Vec4

/-- scale = (u_Pass == 0) ? u_SceneScale·u_CoreScale : u_SceneScale
(recomputed at the end of main exactly as baseScale). -/
def finalScale (u : Uniforms) : ℚ :=
  if u.uPass = 0 then u.uSceneScale * u.uCoreScale else u.uSceneScale

/-- v_Pos = (u_Model · vec4(displaced, 1)).xyz. -/
def vPosOf (pr : Prims) (u : Uniforms) (p : Vec3) : Vec3 :=
  let w := mat4App u.uModel (toVec4 (displacedOf pr u p) 1)
  ⟨w 0, w 1, w 2⟩

/-- main() of fireball-vert.glsl as a pure function of the uniforms and
the input vertex position vs_Pos.xyz. -/
def mainVertex (pr : Prims) (u : Uniforms) (p : Vec3) : VertexOut :=
  { vPos := vPosOf pr u p
    vCore := fBMOf pr u p
    vHeight := dispOf pr u p
    vRadial := 1 - smoothstepQ 0.78 1 (rOf pr u p)
    vRim := smoothstepQ 0.94 1.08 (rOf pr u p)
    vGrain := vnoise ((displacedOf pr u p).scale 32)
    vUpDot := upDotOf pr u p
    glPosition :=
      mat4App u.uViewProj (mat4App u.uModel (toVec4 ((displacedOf pr u p).scale (finalScale u)) 1)) }

/-- Replace exactly the four mouse uniforms, keeping every other field. -/
def setMouse (u : Uniforms) (m : Vec2) (s f : ℚ) (mo : ℤ) : Uniforms :=
  { u with uMouseNDC := m, uMouseStrength := s, uMouseFalloff := f, uMouseOn := mo }

/-! ## The frame loop (tick) of main.ts: parameter snapshot per frame -/

/-- The GUI/static control values read by tick (defaults + audioDefaults
in main.ts). -/
structure Controls where
  coreLowAmp : ℚ
  coreHiAmp : ℚ
  coreScale : ℚ
  flameNoiseScale : ℚ
  flameHiAmp : ℚ
  flameLift : ℚ
  octaves : ℤ
  bandCount : ℤ
  grainAmp : ℚ
  wash : ℚ
  exposure : ℚ
  coreHot : ℚ
  shellOffset : ℚ
  glowOffsetMul : ℚ
  sceneScale : ℚ
  glowStrength : ℚ
  upTargetX : ℚ
  upTargetY : ℚ
  upTargetZ : ℚ
  upCatchupTau : ℚ
  mouseOn : Bool
  mouseStrength : ℚ
  mouseFalloff : ℚ
  audioOn : Bool
  smoothing : ℚ
  sensitivity : ℚ
  bassToFlameLift : ℚ
  bassToGlow : ℚ
  midToCoreLow : ℚ
  trebleToGrainHi : ℚ
  beatToExposure : ℚ

/-- The four audio levels aBass/aMid/aTre/aBeat. -/
structure AudioLevels where
  aBass : ℚ
  aMid : ℚ
  aTre : ℚ
  aBeat : ℚ
  deriving DecidableEq

/-- The per-frame uniform snapshot bound by tick (the scalar/vector
uniforms; the camera matrices are not part of it). -/
structure Snapshot where
  sTime : ℚ
  sOct : ℤ
  sCoreLow : ℚ
  sCoreHi : ℚ
  sCoreScale : ℚ
  sFlameScale : ℚ
  sFlameHi : ℚ
  sFlameLift : ℚ
  sUpDir : Vec3
  sBands : ℤ
  sGrain : ℚ
  sWash : ℚ
  sExposure : ℚ
  sCoreHot : ℚ
  sShellOffset : ℚ
  sGlowOffset : ℚ
  sSceneScale : ℚ
  sGlowStrength : ℚ
  sMouseNDC : Vec2
  sMouseStrength : ℚ
  sMouseFalloff : ℚ
  sMouseOn : ℤ
  sAudioBass : ℚ
  sAudioMid : ℚ
  sAudioTreble : ℚ
  sAudioBeat : ℚ
  deriving DecidableEq

/-- The snapshot with its time field forced to 0 (to compare all other
fields across frames). -/
def stripTime (s : Snapshot) : Snapshot := { s with sTime := 0 }

/-- gl-matrix vec3.lerp: a + t·(b − a) componentwise. -/
def lerp3 (a b : Vec3) (t : ℚ) : Vec3 :=
  ⟨a.x + t * (b.x - a.x), a.y + t * (b.y - a.y), a.z + t * (b.z - a.z)⟩

/-- gl-matrix vec3.normalize: scale by 1/sqrt(len²) when len² > 0, else
by 0. -/
def vecNormalize (pr : Prims) (v : Vec3) : Vec3 :=
  let l := Vec3.dot v v
  if 0 < l then v.scale (1 / pr.psqrt l) else v.scale 0

/-- The lagged-up-vector update of tick:
upTarget := normalize(controls.upTarget);
k := 1 − exp(−dt / max(upCatchupTau, 0.001));
upSmooth := normalize(lerp(upSmooth, upTarget, k)). -/
def upSmoothStep (pr : Prims) (c : Controls) (upPrev : Vec3) (dt : ℚ) : Vec3 :=
  let upTarget := vecNormalize pr ⟨c.upTargetX, c.upTargetY, c.upTargetZ⟩
  let k := 1 - pr.pexp (-(dt / max c.upCatchupTau 0.001))
  vecNormalize pr (lerp3 upPrev upTarget k)

/-- The uniform values tick binds in one frame.  audioPre are the levels
at the time the raw audio uniforms are bound (before updateAudioLevels
runs); audioPost the levels the CPU-side modulations read (after it).
When fireball mode or audio reactivity is off, the audio uniforms are
zeroed and the base values pass through. -/
def tickSnapshot (pr : Prims) (c : Controls) (fireballOn : Bool)
    (audioPre audioPost : AudioLevels) (upPrev : Vec3) (mouse : Vec2) (t dt : ℚ) : Snapshot :=
  let upNew := upSmoothStep pr c upPrev dt
  if fireballOn && c.audioOn then
    { sTime := t
      sOct := c.octaves
      sCoreLow := min (c.coreLowAmp + audioPost.aMid * c.midToCoreLow) 1.0
      sCoreHi := c.coreHiAmp
      sCoreScale := c.coreScale
      sFlameScale := c.flameNoiseScale
      sFlameHi := c.flameHiAmp
      sFlameLift := min (c.flameLift + audioPost.aBass * c.bassToFlameLift) 1.8
      sUpDir := upNew
      sBands := c.bandCount
      sGrain := min (c.grainAmp + audioPost.aTre * c.trebleToGrainHi) 0.6
      sWash := c.wash
      sExposure := min (c.exposure + audioPost.aBeat * c.beatToExposure) 2.0
      sCoreHot := c.coreHot
      sShellOffset := c.shellOffset
      sGlowOffset := c.shellOffset * c.glowOffsetMul
      sSceneScale := c.sceneScale
      sGlowStrength := min (c.glowStrength + audioPost.aBass * c.bassToGlow) 3.0
      sMouseNDC := mouse
      sMouseStrength := c.mouseStrength
      sMouseFalloff := c.mouseFalloff
      sMouseOn := if c.mouseOn then 1 else 0
      sAudioBass := audioPre.aBass
      sAudioMid := audioPre.aMid
      sAudioTreble := audioPre.aTre
      sAudioBeat := audioPre.aBeat }
  else
    { sTime := t
      sOct := c.octaves
      sCoreLow := c.coreLowAmp
      sCoreHi := c.coreHiAmp
      sCoreScale := c.coreScale
      sFlameScale := c.flameNoiseScale
      sFlameHi := c.flameHiAmp
      sFlameLift := c.flameLift
      sUpDir := upNew
      sBands := c.bandCount
      sGrain := c.grainAmp
      sWash := c.wash
      sExposure := c.exposure
      sCoreHot := c.coreHot
      sShellOffset := c.shellOffset
      sGlowOffset := c.shellOffset * c.glowOffsetMul
      sSceneScale := c.sceneScale
      sGlowStrength := c.glowStrength
      sMouseNDC := mouse
      sMouseStrength := c.mouseStrength
      sMouseFalloff := c.mouseFalloff
      sMouseOn := if c.mouseOn then 1 else 0
      sAudioBass := 0
      sAudioMid := 0
      sAudioTreble := 0
      sAudioBeat := 0 }

/-! ## Beat detection, updateAudioLevels in main.ts -/

/-- The beat-detection state: the rolling average ema, the time of the
last beat, and the current beat level aBeat. -/
structure BeatState where
  ema : ℚ
  lastBeatT : ℚ
  aBeat : ℚ
  deriving DecidableEq

/-- Initial beat state (module globals: ema = 0, lastBeatT = 0, aBeat = 0). -/
def beatInit : BeatState := { ema := 0, lastBeatT := 0, aBeat := 0 }

/-- nowE = bass·1.0 + mid·0.25. -/
def beatEnergy (bass mid : ℚ) : ℚ := bass * 1.0 + mid * 0.25

/-- The ema update: if (ema == 0) ema = nowE; ema = (1−α)·ema + α·nowE
with α = 0.15. -/
def emaNext (ema nowE : ℚ) : ℚ :=
  let e0 := if ema = 0 then nowE else ema
  (1 - 0.15) * e0 + 0.15 * nowE

/-- Whether a beat fires this call: canBeat (strictly more than 0.26 s
since the last beat) and nowE above the adapted threshold. -/
def beatFire (sens : ℚ) (st : BeatState) (bass mid t : ℚ) : Bool :=
  let nowE := beatEnergy bass mid
  let ema1 := emaNext st.ema nowE
  let threshold := ema1 * max 0.5 sens
  decide (t - st.lastBeatT > 0.26 ∧ nowE > threshold)

/-- One call of the beat-detection section of updateAudioLevels. -/
def beatStep (sens : ℚ) (st : BeatState) (bass mid t : ℚ) : BeatState :=
  let nowE := beatEnergy bass mid
  let ema1 := emaNext st.ema nowE
  if beatFire sens st bass mid t then
    { ema := ema1, lastBeatT := t, aBeat := 1 }
  else
    { ema := ema1, lastBeatT := st.lastBeatT, aBeat := max 0 (st.aBeat - 3.5 * (1 / 60)) }

/-- Run the beat detector over a list of (bass, mid, t) samples, counting
how many beats fire. -/
def runBeats (sens : ℚ) : BeatState → List (ℚ × ℚ × ℚ) → Nat
  | _, [] => 0
  | st, (b, m, t) :: rest =>
    (if beatFire sens st b m t then 1 else 0) + runBeats sens (beatStep sens st b m t) rest

/-! ## Orbit camera input handlers, main.ts -/

/-- The orbit state mutated by the input handlers. -/
structure Orbit where
  yaw : ℚ
  pitch : ℚ
  radius : ℚ
  deriving DecidableEq

/-- Initial orbit state: yaw 0, pitch 0.2, radius 8. -/
def orbitInit : Orbit := { yaw := 0, pitch := 0.2, radius := 8 }

/-- A drag (mousemove while dragging) or scroll (wheel) event. -/
inductive OrbitEvent where
  | drag (dx dy : ℚ)
  | scroll (sgn : ℚ)

/-- The mousemove handler: yaw += dx·0.008;
pitch = max(minPitch, min(maxPitch, pitch + dy·0.008)). -/
def dragStep (o : Orbit) (dx dy : ℚ) : Orbit :=
  { yaw := o.yaw + dx * 0.008
    pitch := max (-1.4) (min 1.4 (o.pitch + dy * 0.008))
    radius := o.radius }

/-- The wheel handler: radius *= 1 + sign(deltaY)·0.25·0.1;
radius = max(minRadius, min(maxRadius, radius)). -/
def scrollStep (o : Orbit) (sgn : ℚ) : Orbit :=
  { yaw := o.yaw
    pitch := o.pitch
    radius := max 2.5 (min 50 (o.radius * (1.0 + sgn * 0.25 * 0.1))) }

/-- Apply a finite sequence of input events. -/
def applyEvents : Orbit → List OrbitEvent → Orbit
  | o, [] => o
  | o, OrbitEvent.drag dx dy :: rest => applyEvents (dragStep o dx dy) rest
  | o, OrbitEvent.scroll sgn :: rest => applyEvents (scrollStep o sgn) rest

/-- The camera bounds: pitch ∈ [−1.4, 1.4] and radius ∈ [2.5, 50]. -/
def orbitInBounds (o : Orbit) : Prop :=
  -1.4 ≤ o.pitch ∧ o.pitch ≤ 1.4 ∧ 2.5 ≤ o.radius ∧ o.radius ≤ 50

/-! ## Audio capture teardown, main.ts -/

/-- The audio-capture state touched by stopTabAudioCapture: the handles
(as liveness flags) and the level/beat globals. -/
structure AudioSys where
  tabStreamLive : Bool
  audioCtxOpen : Bool
  analyserWired : Bool
  fftAlloc : Bool
  filePlaying : Bool
  aBass : ℚ
  aMid : ℚ
  aTre : ℚ
  aBeat : ℚ
  ema : ℚ
  lastBeatT : ℚ
  deriving DecidableEq

/-- stopTabAudioCapture: stop the tracks, close the context, drop the
analyser and fft buffer, zero the four levels, reset ema and the beat
debounce timer, pause file playback. -/
def stopTabAudioCapture (_s : AudioSys) : AudioSys :=
  { tabStreamLive := false
    audioCtxOpen := false
    analyserWired := false
    fftAlloc := false
    filePlaying := false
    aBass := 0
    aMid := 0
    aTre := 0
    aBeat := 0
    ema := 0
    lastBeatT := 0 }

/-- The listener wireAnalyserFromStream installs on every capture track:
ended → stopTabAudioCapture(). -/
def onCaptureTrackEnded (s : AudioSys) : AudioSys := stopTabAudioCapture s

/-- wireAnalyserFromStream: store the stream, open a context, wire the
analyser and fft buffer.  It does not touch the levels or beat state. -/
def wireAnalyserFromStream (s : AudioSys) : AudioSys :=
  { s with tabStreamLive := true, audioCtxOpen := true, analyserWired := true, fftAlloc := true }

/-! ## Helper lemmas: the noise field -/

theorem fractQ_nonneg (q : ℚ) : 0 ≤ fractQ q := by
  have h := Int.floor_le q
  unfold fractQ
  linarith

theorem fractQ_lt_one (q : ℚ) : fractQ q < 1 := by
  have h := Int.lt_floor_add_one q
  have h' : q - (⌊q⌋ : ℚ) < 1 := by linarith
  simpa [fractQ] using h'

theorem h31_nonneg (p : Vec3) : 0 ≤ h31 p := by
  unfold h31
  exact fractQ_nonneg _

theorem h31_le_one (p : Vec3) : h31 p ≤ 1 := by
  unfold h31
  exact le_of_lt (fractQ_lt_one _)

theorem mixQ_nonneg {a b t : ℚ} (ha : 0 ≤ a) (hb : 0 ≤ b) (ht0 : 0 ≤ t) (ht1 : t ≤ 1) :
    0 ≤ mixQ a b t := by
  unfold mixQ
  nlinarith

theorem mixQ_le_one {a b t : ℚ} (ha : a ≤ 1) (hb : b ≤ 1) (ht0 : 0 ≤ t) (ht1 : t ≤ 1) :
    mixQ a b t ≤ 1 := by
  unfold mixQ
  nlinarith

theorem weight_nonneg {t : ℚ} (_h0 : 0 ≤ t) (h1 : t ≤ 1) : 0 ≤ t * t * (3 - 2 * t) := by
  nlinarith [h1]

theorem weight_le_one {t : ℚ} (h0 : 0 ≤ t) (_h1 : t ≤ 1) : t * t * (3 - 2 * t) ≤ 1 := by
  nlinarith [sq_nonneg (1 - t), h0]

theorem vnoise_nonneg (p : Vec3) : 0 ≤ vnoise p := by
  unfold vnoise
  have hx0 := fractQ_nonneg p.x
  have hx1 := (fractQ_lt_one p.x).le
  have hy0 := fractQ_nonneg p.y
  have hy1 := (fractQ_lt_one p.y).le
  have hz0 := fractQ_nonneg p.z
  have hz1 := (fractQ_lt_one p.z).le
  simp only [Vec3.fractV]
  refine mixQ_nonneg (mixQ_nonneg (mixQ_nonneg (h31_nonneg _) (h31_nonneg _) ?_ ?_)
    (mixQ_nonneg (h31_nonneg _) (h31_nonneg _) ?_ ?_) ?_ ?_)
    (mixQ_nonneg (mixQ_nonneg (h31_nonneg _) (h31_nonneg _) ?_ ?_)
      (mixQ_nonneg (h31_nonneg _) (h31_nonneg _) ?_ ?_) ?_ ?_) ?_ ?_ <;>
    first
      | exact weight_nonneg hx0 hx1
      | exact weight_le_one hx0 hx1
      | exact weight_nonneg hy0 hy1
      | exact weight_le_one hy0 hy1
      | exact weight_nonneg hz0 hz1
      | exact weight_le_one hz0 hz1

theorem vnoise_le_one (p : Vec3) : vnoise p ≤ 1 := by
  unfold vnoise
  have hx0 := fractQ_nonneg p.x
  have hx1 := (fractQ_lt_one p.x).le
  have hy0 := fractQ_nonneg p.y
  have hy1 := (fractQ_lt_one p.y).le
  have hz0 := fractQ_nonneg p.z
  have hz1 := (fractQ_lt_one p.z).le
  simp only [Vec3.fractV]
  refine mixQ_le_one (mixQ_le_one (mixQ_le_one (h31_le_one _) (h31_le_one _) ?_ ?_)
    (mixQ_le_one (h31_le_one _) (h31_le_one _) ?_ ?_) ?_ ?_)
    (mixQ_le_one (mixQ_le_one (h31_le_one _) (h31_le_one _) ?_ ?_)
      (mixQ_le_one (h31_le_one _) (h31_le_one _) ?_ ?_) ?_ ?_) ?_ ?_ <;>
    first
      | exact weight_nonneg hx0 hx1
      | exact weight_le_one hx0 hx1
      | exact weight_nonneg hy0 hy1
      | exact weight_le_one hy0 hy1
      | exact weight_nonneg hz0 hz1
      | exact weight_le_one hz0 hz1

theorem vnoise_eq_spec (p : Vec3) : vnoise p = valueNoise3Spec p := by
  unfold vnoise valueNoise3Spec mixQ
  ring

theorem vnoise_intCast (a b c : ℤ) :
    vnoise ⟨(a : ℚ), (b : ℚ), (c : ℚ)⟩ = h31 ⟨(a : ℚ), (b : ℚ), (c : ℚ)⟩ := by
  unfold vnoise
  simp [Vec3.fractV, Vec3.floorV, fractQ, mixQ, Int.floor_intCast]

/-! ## Helper lemmas: the fbm loop as a finite sum -/

theorem fbmLoop_eq_sum (p : Vec3) (oct : ℤ) :
    ∀ (fuel i : Nat) (a f s : ℚ),
      fbmLoop p oct fuel i a f s
        = s + ∑ j in Finset.range (min fuel (oct - i).toNat),
            a * (1 / 2) ^ j * vnoise (p.scale (f * (2.02 : ℚ) ^ j)) := by
  intro fuel
  induction fuel with
  | zero => intro i a f s; simp [fbmLoop]
  | succ n ih =>
    intro i a f s
    by_cases h : (i : ℤ) ≥ oct
    · have h0 : (oct - (i : ℤ)).toNat = 0 := by omega
      simp [fbmLoop, h, h0]
    · have hmin : min (n + 1) (oct - (i : ℤ)).toNat
          = min n (oct - ((i : ℤ) + 1)).toNat + 1 := by omega
      rw [fbmLoop, if_neg h, ih]
      push_cast
      rw [hmin, Finset.sum_range_succ']
      have hsum : ∑ j in Finset.range (min n (oct - ((i : ℤ) + 1)).toNat),
            a * 0.5 * (1 / 2) ^ j * vnoise (p.scale (f * 2.02 * (2.02 : ℚ) ^ j))
          = ∑ j in Finset.range (min n (oct - ((i : ℤ) + 1)).toNat),
            a * (1 / 2) ^ (j + 1) * vnoise (p.scale (f * (2.02 : ℚ) ^ (j + 1))) := by
        refine Finset.sum_congr rfl fun j _ => ?_
        have harg : f * 2.02 * (2.02 : ℚ) ^ j = f * (2.02 : ℚ) ^ (j + 1) := by ring
        rw [harg]
        ring
      rw [hsum]
      simp only [pow_zero, mul_one]
      ring

theorem fbm_eq_sum (p : Vec3) (k : ℤ) :
    fbm p k = ∑ i in Finset.range (octIter k),
      (1 / 2 : ℚ) ^ (i + 1) * vnoise (p.scale ((2.02 : ℚ) ^ i)) := by
  rw [fbm, fbmLoop_eq_sum]
  simp only [Nat.cast_zero, sub_zero, zero_add]
  have h1 : min 8 k.toNat = octIter k := rfl
  rw [h1]
  refine Finset.sum_congr rfl fun j _ => ?_
  rw [one_mul]
  ring

theorem geomHalfSum (n : ℕ) :
    ∑ i in Finset.range n, (1 / 2 : ℚ) ^ (i + 1) = 1 - (1 / 2) ^ n := by
  induction n with
  | zero => simp
  | succ m ih => rw [Finset.sum_range_succ, ih]; ring

theorem octIter_eq (k : ℤ) : octIter k = (min (max k 0) 8).toNat := by
  unfold octIter; omega

theorem fbm_nonneg (p : Vec3) (k : ℤ) : 0 ≤ fbm p k := by
  rw [fbm_eq_sum]
  refine Finset.sum_nonneg fun i _ => ?_
  have hv := vnoise_nonneg (p.scale ((2.02 : ℚ) ^ i))
  positivity

theorem fbm_le (p : Vec3) (k : ℤ) :
    fbm p k ≤ 1 - (1 / 2 : ℚ) ^ ((min (max k 0) 8).toNat) := by
  rw [fbm_eq_sum, ← octIter_eq, ← geomHalfSum]
  refine Finset.sum_le_sum fun i _ => ?_
  have hv := vnoise_le_one (p.scale ((2.02 : ℚ) ^ i))
  have h0 : (0 : ℚ) ≤ (1 / 2 : ℚ) ^ (i + 1) := by positivity
  calc (1 / 2 : ℚ) ^ (i + 1) * vnoise (p.scale ((2.02 : ℚ) ^ i))
      ≤ (1 / 2 : ℚ) ^ (i + 1) * 1 := mul_le_mul_of_nonneg_left hv h0
    _ = (1 / 2 : ℚ) ^ (i + 1) := mul_one _

theorem fbm_lt_one (p : Vec3) (k : ℤ) : fbm p k < 1 := by
  have h := fbm_le p k
  have hp : (0 : ℚ) < (1 / 2 : ℚ) ^ ((min (max k 0) 8).toNat) := by positivity
  linarith

theorem fbm_top_cap (p : Vec3) {k : ℤ} (h : 8 ≤ k) : fbm p k = fbm p 8 := by
  rw [fbm_eq_sum, fbm_eq_sum]
  have h8 : octIter k = octIter 8 := by unfold octIter; omega
  rw [h8]

theorem fbm_zero_of_nonpos (p : Vec3) {k : ℤ} (h : k ≤ 0) : fbm p k = 0 := by
  rw [fbm_eq_sum]
  have h0 : octIter k = 0 := by unfold octIter; omega
  rw [h0]
  simp

/-! ## Claim theorems: the noise field -/

/-- C2: vnoise(p) is the trilinear interpolation of h31 at the 8
surrounding lattice corners with per-axis weight w(t) = 3t²−2t³ applied
to the fractional coordinate; it lies in [0,1] for every input; and at
every integer lattice point it equals h31 of that point. -/
theorem vnoise_spec_claims :
    (∀ p : Vec3, vnoise p = valueNoise3Spec p ∧ 0 ≤ vnoise p ∧ vnoise p ≤ 1)
      ∧ ∀ a b c : ℤ, vnoise ⟨(a : ℚ), (b : ℚ), (c : ℚ)⟩ = h31 ⟨(a : ℚ), (b : ℚ), (c : ℚ)⟩ :=
  ⟨fun p => ⟨vnoise_eq_spec p, vnoise_nonneg p, vnoise_le_one p⟩, vnoise_intCast⟩

/-- C1 (amended): fbm(p, oct) is the sum over octave index i <
min(max(oct,0),8) of amplitude 0.5^(i+1) times vnoise(p·2.02^i): the
amplitude seed is 0.5 and halves each octave, the frequency multiplies by
2.02 each octave, and the octave count is clamped from above at 8 (for
oct ≥ 8 the result equals fbm with 8 octaves) but not from below (for
oct ≤ 0 the sum is empty and fbm returns 0, not fbm at one octave). -/
theorem fbm_octave_sum (p : Vec3) (k : ℤ) :
    fbm p k = ∑ i in Finset.range ((min (max k 0) 8).toNat),
        (1 / 2 : ℚ) ^ (i + 1) * vnoise (p.scale ((2.02 : ℚ) ^ i))
      ∧ (8 ≤ k → fbm p k = fbm p 8)
      ∧ (k ≤ 0 → fbm p k = 0) :=
  ⟨by rw [fbm_eq_sum, octIter_eq], fun h => fbm_top_cap p h, fun h => fbm_zero_of_nonpos p h⟩

/-- Witness for fbm_octave_sum: the upper clamp at k = 9 and the empty
sum at k = 0, at the concrete point (1,2,3). -/
theorem fbm_octave_sum_witness :
    fbm ⟨1, 2, 3⟩ 9 = fbm ⟨1, 2, 3⟩ 8 ∧ fbm ⟨1, 2, 3⟩ 0 = 0 :=
  ⟨(fbm_octave_sum ⟨1, 2, 3⟩ 9).2.1 (by norm_num), (fbm_octave_sum ⟨1, 2, 3⟩ 0).2.2 le_rfl⟩

set_option maxHeartbeats 4000000 in
/-- C1 counterexample: at p = (0,0,0) and octaves = 0 the fbm loop runs
zero iterations and returns 0, but fbm with the octave count clamped
into [1,8] (that is, one octave) returns 0.5·vnoise(0,0,0) ≠ 0: the
code has no lower clamp, so the claimed equality with the clamped octave
count fails for octaves ≤ 0. -/
theorem fbm_low_clamp_cex :
    fbm ⟨0, 0, 0⟩ 0 = 0 ∧ fbm ⟨0, 0, 0⟩ 0 ≠ fbm ⟨0, 0, 0⟩ (max 1 (min 8 0)) := by
  constructor
  · norm_num [fbm, fbmLoop]
  · norm_num [fbm, fbmLoop, vnoise, h31, Vec3.fractV, fractQ, Vec3.dot, Vec3.yzx, Vec3.scale,
      Vec3.addScalar, Vec3.floorV, mixQ]

/-- C10: fbm stays within [0, 1 − 0.5^min(max(k,0),8)] — in particular
strictly below 1 — and the octave loop caps at 8 iterations, so every
k ≥ 8 gives the same value as k = 8 even when the caller does not
clamp. -/
theorem fbm_range_cap (p : Vec3) (k : ℤ) :
    (0 ≤ fbm p k ∧ fbm p k ≤ 1 - (1 / 2 : ℚ) ^ ((min (max k 0) 8).toNat))
      ∧ fbm p k < 1 ∧ (8 ≤ k → fbm p k = fbm p 8) :=
  ⟨⟨fbm_nonneg p k, fbm_le p k⟩, fbm_lt_one p k, fun h => fbm_top_cap p h⟩

/-- Witness for fbm_range_cap: the k ≥ 8 implication discharged at
p = (0,0,0), k = 9. -/
theorem fbm_range_cap_witness : fbm ⟨0, 0, 0⟩ 9 = fbm ⟨0, 0, 0⟩ 8 :=
  (fbm_range_cap ⟨0, 0, 0⟩ 9).2.2 (by norm_num)

/-! ## Helper lemmas and claim theorems: the displacement model -/

@[simp] theorem setMouse_uPass (u : Uniforms) (m : Vec2) (s f : ℚ) (mo : ℤ) :
    (setMouse u m s f mo).uPass = u.uPass := rfl

@[simp] theorem setMouse_uUpDir (u : Uniforms) (m : Vec2) (s f : ℚ) (mo : ℤ) :
    (setMouse u m s f mo).uUpDir = u.uUpDir := rfl

@[simp] theorem setMouse_uTime (u : Uniforms) (m : Vec2) (s f : ℚ) (mo : ℤ) :
    (setMouse u m s f mo).uTime = u.uTime := rfl

@[simp] theorem setMouse_uOctaves (u : Uniforms) (m : Vec2) (s f : ℚ) (mo : ℤ) :
    (setMouse u m s f mo).uOctaves = u.uOctaves := rfl

@[simp] theorem setMouse_uCoreLowAmp (u : Uniforms) (m : Vec2) (s f : ℚ) (mo : ℤ) :
    (setMouse u m s f mo).uCoreLowAmp = u.uCoreLowAmp := rfl

@[simp] theorem setMouse_uCoreHiAmp (u : Uniforms) (m : Vec2) (s f : ℚ) (mo : ℤ) :
    (setMouse u m s f mo).uCoreHiAmp = u.uCoreHiAmp := rfl

@[simp] theorem setMouse_uCoreScale (u : Uniforms) (m : Vec2) (s f : ℚ) (mo : ℤ) :
    (setMouse u m s f mo).uCoreScale = u.uCoreScale := rfl

@[simp] theorem setMouse_uFlameNoiseScale (u : Uniforms) (m : Vec2) (s f : ℚ) (mo : ℤ) :
    (setMouse u m s f mo).uFlameNoiseScale = u.uFlameNoiseScale := rfl

@[simp] theorem setMouse_uFlameHiAmp (u : Uniforms) (m : Vec2) (s f : ℚ) (mo : ℤ) :
    (setMouse u m s f mo).uFlameHiAmp = u.uFlameHiAmp := rfl

@[simp] theorem setMouse_uFlameLift (u : Uniforms) (m : Vec2) (s f : ℚ) (mo : ℤ) :
    (setMouse u m s f mo).uFlameLift = u.uFlameLift := rfl

@[simp] theorem setMouse_uShellOffset (u : Uniforms) (m : Vec2) (s f : ℚ) (mo : ℤ) :
    (setMouse u m s f mo).uShellOffset = u.uShellOffset := rfl

@[simp] theorem setMouse_uGlowOffset (u : Uniforms) (m : Vec2) (s f : ℚ) (mo : ℤ) :
    (setMouse u m s f mo).uGlowOffset = u.uGlowOffset := rfl

@[simp] theorem setMouse_uSceneScale (u : Uniforms) (m : Vec2) (s f : ℚ) (mo : ℤ) :
    (setMouse u m s f mo).uSceneScale = u.uSceneScale := rfl

@[simp] theorem setMouse_uModel (u : Uniforms) (m : Vec2) (s f : ℚ) (mo : ℤ) :
    (setMouse u m s f mo).uModel = u.uModel := rfl

@[simp] theorem setMouse_uViewProj (u : Uniforms) (m : Vec2) (s f : ℚ) (mo : ℤ) :
    (setMouse u m s f mo).uViewProj = u.uViewProj := rfl

/-- C3: for pass index 0 the vertex displacement v_Height equals
coreLowAmp·(0.70·sin(0.85·p.y) + 0.50·cos(0.60·p.z) + 0.40·sin(0.60·p.x))
+ coreHiAmp·(vnoise(p·6) − 0.5), and this value does not depend on the
elapsed time u_Time. -/
theorem core_pass_displacement (pr : Prims) (u : Uniforms) (p : Vec3) (h : u.uPass = 0) :
    (mainVertex pr u p).vHeight
        = u.uCoreLowAmp * (0.70 * pr.psin (0.85 * p.y) + 0.50 * pr.pcos (0.60 * p.z)
            + 0.40 * pr.psin (0.60 * p.x))
          + u.uCoreHiAmp * (vnoise (p.scale 6) - 0.5)
      ∧ ∀ t2 : ℚ, (mainVertex pr { u with uTime := t2 } p).vHeight
          = (mainVertex pr u p).vHeight := by
  constructor
  · simp [mainVertex, dispOf, h, coreDisp, lowStatic]
  · intro t2
    simp [mainVertex, dispOf, h, coreDisp, lowStatic]

/-- A concrete interpretation of the abstract primitives, for witnesses:
sin = cos = 0, exp = 1/2, pow = 0, sqrt = 1. -/
def primsW : Prims :=
  { psin := fun _ => 0, pcos := fun _ => 0, pexp := fun _ => 1 / 2, ppow := fun _ _ => 0,
    psqrt := fun _ => 1 }

/-- Concrete uniforms with pass index 0 (the repository's default
parameter values), for witnesses. -/
def uniformsW : Uniforms :=
  { uModel := 1, uViewProj := 1, uTime := 0, uOctaves := 5, uCoreLowAmp := 0.26,
    uCoreHiAmp := 0.01, uCoreScale := 0.72, uFlameNoiseScale := 2.2, uFlameHiAmp := 0.24,
    uFlameLift := 0.26, uUpDir := ⟨0, 1, 0⟩, uMouseNDC := ⟨0, 0⟩, uMouseStrength := 0.9,
    uMouseFalloff := 0.35, uMouseOn := 1, uShellOffset := 0.2, uGlowOffset := 0.32,
    uSceneScale := 1, uPass := 0 }

/-- Witness for core_pass_displacement: the pass-0 hypothesis discharged
at concrete uniforms, with the time-invariance instantiated at t = 5. -/
theorem core_pass_displacement_witness :
    (mainVertex primsW { uniformsW with uTime := 5 } ⟨0, 0, 0⟩).vHeight
      = (mainVertex primsW uniformsW ⟨0, 0, 0⟩).vHeight :=
  (core_pass_displacement primsW uniformsW ⟨0, 0, 0⟩ rfl).2 5

/-- C4: for pass index 0, two shader evaluations that differ only in the
four mouse uniforms produce identical outputs (all varyings and
gl_Position). -/
theorem core_pass_mouse_immune (pr : Prims) (u : Uniforms) (p : Vec3)
    (m1 m2 : Vec2) (s1 s2 f1 f2 : ℚ) (o1 o2 : ℤ) (h : u.uPass = 0) :
    mainVertex pr (setMouse u m1 s1 f1 o1) p = mainVertex pr (setMouse u m2 s2 f2 o2) p := by
  have hup : ∀ (m : Vec2) (s f : ℚ) (mo : ℤ),
      upDeform pr (setMouse u m s f mo) p = glslNormalize3 pr (glslNormalize3 pr u.uUpDir) := by
    intro m s f mo
    simp [upDeform, shUp, h, mix3, mixQ]
  have hdisp : ∀ (m : Vec2) (s f : ℚ) (mo : ℤ),
      dispOf pr (setMouse u m s f mo) p = coreDisp pr u p := by
    intro m s f mo
    simp [dispOf, h, coreDisp]
  have hextra : ∀ (m : Vec2) (s f : ℚ) (mo : ℤ),
      extraOf pr (setMouse u m s f mo) p = (⟨0, 0, 0⟩ : Vec3) := by
    intro m s f mo
    simp [extraOf, h]
  have hdisplaced : ∀ (m : Vec2) (s f : ℚ) (mo : ℤ),
      displacedOf pr (setMouse u m s f mo) p
        = p + (shN pr p).scale (coreDisp pr u p) + (⟨0, 0, 0⟩ : Vec3) := by
    intro m s f mo
    rw [displacedOf, hdisp, hextra]
  have hupdot : ∀ (m : Vec2) (s f : ℚ) (mo : ℤ),
      upDotOf pr (setMouse u m s f mo) p
        = clampQ (Vec3.dot (shN pr p) (glslNormalize3 pr (glslNormalize3 pr u.uUpDir))) 0 1 := by
    intro m s f mo
    rw [upDotOf, hup]
  have hfbm : ∀ (m : Vec2) (s f : ℚ) (mo : ℤ),
      fBMOf pr (setMouse u m s f mo) p
        = fbm (p.scale u.uFlameNoiseScale
            + (glslNormalize3 pr (glslNormalize3 pr u.uUpDir)).scale (0.7 * u.uTime))
            u.uOctaves := by
    intro m s f mo
    rw [fBMOf, hup]
    simp
  simp [mainVertex, vPosOf, rOf, finalScale, h, hdisp, hdisplaced, hupdot, hfbm]

/-- Witness for core_pass_mouse_immune: two different concrete mouse
settings at the default pass-0 uniforms give identical outputs. -/
theorem core_pass_mouse_immune_witness :
    mainVertex primsW (setMouse uniformsW ⟨0, 0⟩ 0 0.1 1) ⟨1, 0, 0⟩
      = mainVertex primsW (setMouse uniformsW ⟨1, 1⟩ 2 0.5 0) ⟨1, 0, 0⟩ :=
  core_pass_mouse_immune primsW uniformsW ⟨1, 0, 0⟩ ⟨0, 0⟩ ⟨1, 1⟩ 0 2 0.1 0.5 1 0 rfl

/-! ## Claim theorems: the parameter snapshot (tick) -/

/-- The repository's default control values (defaults + audioDefaults in
main.ts). -/
def controlsW : Controls :=
  { coreLowAmp := 0.26, coreHiAmp := 0.01, coreScale := 0.72, flameNoiseScale := 2.2,
    flameHiAmp := 0.24, flameLift := 0.26, octaves := 5, bandCount := 7, grainAmp := 0.08,
    wash := 0.18, exposure := 0.45, coreHot := 0.55, shellOffset := 0.2, glowOffsetMul := 1.6,
    sceneScale := 1, glowStrength := 0.9, upTargetX := 0, upTargetY := 1, upTargetZ := 0,
    upCatchupTau := 0.25, mouseOn := true, mouseStrength := 0.9, mouseFalloff := 0.35,
    audioOn := true, smoothing := 0.7, sensitivity := 1.35, bassToFlameLift := 0.35,
    bassToGlow := 0.65, midToCoreLow := 0.25, trebleToGrainHi := 0.3, beatToExposure := 0.4 }

/-- A second interpretation of the primitives, with sqrt the identity
(consistent with sqrt only at 1), used by the frame counterexample. -/
def primsX : Prims :=
  { psin := fun _ => 0, pcos := fun _ => 0, pexp := fun _ => 1 / 2, ppow := fun _ _ => 0,
    psqrt := fun q => q }

/-- All audio levels zero. -/
def aZero : AudioLevels := ⟨0, 0, 0, 0⟩

/-- C5 (amended): with audio reactivity off, two consecutive frames with
identical camera, mouse and base-parameter state bind identical uniform
values for every snapshot field except u_Time, provided the smoothed up
vector has converged (it is a fixed point of the lagged-up update at the
frames' time steps); while it is still catching up to a changed up
target, u_UpDir also differs between the frames. -/
theorem snapshot_static_frames (pr : Prims) (c : Controls) (fb : Bool)
    (aPre aPost : AudioLevels) (up : Vec3) (m : Vec2) (t1 t2 dt1 dt2 : ℚ)
    (haud : c.audioOn = false)
    (hfix1 : upSmoothStep pr c up dt1 = up) (hfix2 : upSmoothStep pr c up dt2 = up) :
    stripTime (tickSnapshot pr c fb aPre aPost up m t1 dt1)
      = stripTime (tickSnapshot pr c fb aPre aPost (upSmoothStep pr c up dt1) m t2 dt2) := by
  simp [tickSnapshot, stripTime, haud, hfix1, hfix2]

/-- Witness for snapshot_static_frames: the default controls with audio
off and the converged up vector (0,1,0). -/
theorem snapshot_static_frames_witness :
    stripTime (tickSnapshot primsW { controlsW with audioOn := false } false aZero aZero
        ⟨0, 1, 0⟩ ⟨0, 0⟩ 0 (1 / 60))
      = stripTime (tickSnapshot primsW { controlsW with audioOn := false } false aZero aZero
          (upSmoothStep primsW { controlsW with audioOn := false } ⟨0, 1, 0⟩ (1 / 60))
          ⟨0, 0⟩ (1 / 60) (1 / 60)) := by
  have hfix : upSmoothStep primsW { controlsW with audioOn := false } ⟨0, 1, 0⟩ (1 / 60)
      = ⟨0, 1, 0⟩ := by
    norm_num [upSmoothStep, vecNormalize, lerp3, Vec3.dot, Vec3.scale, primsW, controlsW]
  exact snapshot_static_frames primsW { controlsW with audioOn := false } false aZero aZero
    ⟨0, 1, 0⟩ ⟨0, 0⟩ 0 (1 / 60) (1 / 60) (1 / 60) rfl hfix hfix

/-- C5 counterexample: audio off, identical camera/mouse/base values in
both frames, but the smoothed up vector is still converging from (0,1,0)
toward the changed target (1,0,0): the two consecutive frames bind
different u_UpDir values, so the snapshots differ in a field other than
u_Time. -/
theorem snapshot_static_frames_cex :
    (tickSnapshot primsX { controlsW with audioOn := false, upTargetX := 1, upTargetY := 0 }
        false aZero aZero ⟨0, 1, 0⟩ ⟨0, 0⟩ 0 (1 / 60)).sUpDir
      ≠ (tickSnapshot primsX { controlsW with audioOn := false, upTargetX := 1, upTargetY := 0 }
          false aZero aZero
          (upSmoothStep primsX { controlsW with audioOn := false, upTargetX := 1, upTargetY := 0 }
            ⟨0, 1, 0⟩ (1 / 60))
          ⟨0, 0⟩ (1 / 60) (1 / 60)).sUpDir := by
  norm_num [tickSnapshot, upSmoothStep, vecNormalize, lerp3, Vec3.dot, Vec3.scale, primsX,
    controlsW]

/-- C6: with fireball mode and audio reactivity on, each audio-modulated
uniform equals its base plus the weighted level, capped at the documented
ceiling — flameLift at 1.8, glowStrength at 3.0, coreLowAmp at 1.0,
grainAmp at 0.6, exposure at 2.0 — and hence never exceeds the ceiling. -/
theorem modulation_ceilings (pr : Prims) (c : Controls) (aPre aPost : AudioLevels)
    (up : Vec3) (m : Vec2) (t dt : ℚ)
    (_hb0 : 0 ≤ aPost.aBass) (_hb1 : aPost.aBass ≤ 1)
    (_hm0 : 0 ≤ aPost.aMid) (_hm1 : aPost.aMid ≤ 1)
    (_ht0 : 0 ≤ aPost.aTre) (_ht1 : aPost.aTre ≤ 1)
    (_he0 : 0 ≤ aPost.aBeat) (_he1 : aPost.aBeat ≤ 1)
    (hon : c.audioOn = true) :
    ((tickSnapshot pr c true aPre aPost up m t dt).sFlameLift
        = min (c.flameLift + aPost.aBass * c.bassToFlameLift) 1.8
      ∧ (tickSnapshot pr c true aPre aPost up m t dt).sFlameLift ≤ 1.8)
    ∧ ((tickSnapshot pr c true aPre aPost up m t dt).sGlowStrength
        = min (c.glowStrength + aPost.aBass * c.bassToGlow) 3.0
      ∧ (tickSnapshot pr c true aPre aPost up m t dt).sGlowStrength ≤ 3.0)
    ∧ ((tickSnapshot pr c true aPre aPost up m t dt).sCoreLow
        = min (c.coreLowAmp + aPost.aMid * c.midToCoreLow) 1.0
      ∧ (tickSnapshot pr c true aPre aPost up m t dt).sCoreLow ≤ 1.0)
    ∧ ((tickSnapshot pr c true aPre aPost up m t dt).sGrain
        = min (c.grainAmp + aPost.aTre * c.trebleToGrainHi) 0.6
      ∧ (tickSnapshot pr c true aPre aPost up m t dt).sGrain ≤ 0.6)
    ∧ ((tickSnapshot pr c true aPre aPost up m t dt).sExposure
        = min (c.exposure + aPost.aBeat * c.beatToExposure) 2.0
      ∧ (tickSnapshot pr c true aPre aPost up m t dt).sExposure ≤ 2.0) := by
  refine ⟨⟨?_, ?_⟩, ⟨?_, ?_⟩, ⟨?_, ?_⟩, ⟨?_, ?_⟩, ⟨?_, ?_⟩⟩ <;>
    simp [tickSnapshot, hon, min_le_right]

/-- Witness for modulation_ceilings: all levels at 1, default controls,
two of the capped uniforms checked against their ceilings. -/
theorem modulation_ceilings_witness :
    (tickSnapshot primsW controlsW true aZero ⟨1, 1, 1, 1⟩ ⟨0, 1, 0⟩ ⟨0, 0⟩ 0 (1 / 60)).sFlameLift
        ≤ 1.8
      ∧ (tickSnapshot primsW controlsW true aZero ⟨1, 1, 1, 1⟩ ⟨0, 1, 0⟩ ⟨0, 0⟩ 0
          (1 / 60)).sExposure ≤ 2.0 := by
  have h := modulation_ceilings primsW controlsW aZero ⟨1, 1, 1, 1⟩ ⟨0, 1, 0⟩ ⟨0, 0⟩ 0 (1 / 60)
    (by norm_num) (by norm_num) (by norm_num) (by norm_num) (by norm_num) (by norm_num)
    (by norm_num) (by norm_num) rfl
  exact ⟨h.1.2, h.2.2.2.2.2⟩

/-! ## Claim theorems: beat detection -/

/-- C7 (amended): a beat fires exactly when the beat energy
bass·1.0 + mid·0.25 exceeds ema·max(0.5, sensitivity) (with ema already
updated for this call) and strictly more than 0.26 s have elapsed since
the last beat; firing sets the beat level to 1.0 and resets the debounce
timer, otherwise the beat level decays by 3.5·(1/60) per frame (3.5 per
second at the nominal 60 fps), floored at 0.  Two above-threshold spikes
separated by less than 0.26 s fire exactly one beat; separated by more
than 0.26 s they fire two. -/
theorem beat_detector_spec :
    (∀ (sens : ℚ) (st : BeatState) (bass mid t : ℚ),
        (beatFire sens st bass mid t = true
            ↔ t - st.lastBeatT > 0.26
              ∧ beatEnergy bass mid > emaNext st.ema (beatEnergy bass mid) * max 0.5 sens)
        ∧ (beatFire sens st bass mid t = true
            → (beatStep sens st bass mid t).aBeat = 1
              ∧ (beatStep sens st bass mid t).lastBeatT = t)
        ∧ (beatFire sens st bass mid t = false
            → (beatStep sens st bass mid t).aBeat = max 0 (st.aBeat - 3.5 * (1 / 60))
              ∧ (beatStep sens st bass mid t).lastBeatT = st.lastBeatT))
    ∧ runBeats 1.35 beatInit [(0.1, 0, 0.1), (1, 0, 1), (1, 0, 1.1)] = 1
    ∧ runBeats 1.35 beatInit [(0.1, 0, 0.1), (1, 0, 1), (1, 0, 1.4)] = 2 := by
  refine ⟨fun sens st bass mid t => ⟨?_, ?_, ?_⟩, ?_, ?_⟩
  · simp [beatFire, decide_eq_true_eq]
  · intro h
    simp [beatStep, h]
  · intro h
    simp [beatStep, h]
  · norm_num [runBeats, beatStep, beatFire, emaNext, beatEnergy, beatInit]
  · norm_num [runBeats, beatStep, beatFire, emaNext, beatEnergy, beatInit]

/-- Witness for beat_detector_spec: the firing implication discharged at
sensitivity 0.5, initial state, a lone full-energy sample at t = 1. -/
theorem beat_detector_spec_witness :
    (beatStep 0.5 beatInit 1 0 1).aBeat = 1 ∧ (beatStep 0.5 beatInit 1 0 1).lastBeatT = 1 :=
  (beat_detector_spec.1 0.5 beatInit 1 0 1).2.1
    (by norm_num [beatFire, emaNext, beatEnergy, beatInit])

/-- C7 counterexample: with exactly 0.26 s elapsed since the last beat
and the energy strictly above threshold, the code does not fire (the
debounce comparison is strict), although the claim's "at least 0.26 s
have elapsed" condition holds. -/
theorem beat_at_least_cex :
    beatEnergy 1 0
        > emaNext (BeatState.mk 0.1 0 0).ema (beatEnergy 1 0) * max 0.5 1
      ∧ (0.26 : ℚ) - (BeatState.mk 0.1 0 0).lastBeatT ≥ 0.26
      ∧ beatFire 1 (BeatState.mk 0.1 0 0) 1 0 0.26 = false := by
  norm_num [beatFire, emaNext, beatEnergy]

/-! ## Claim theorems: the orbit camera -/

theorem dragStep_bounds (o : Orbit) (dx dy : ℚ) :
    -1.4 ≤ (dragStep o dx dy).pitch ∧ (dragStep o dx dy).pitch ≤ 1.4
      ∧ (dragStep o dx dy).radius = o.radius :=
  ⟨le_max_left _ _, max_le (by norm_num) (min_le_left _ _), rfl⟩

theorem scrollStep_bounds (o : Orbit) (sgn : ℚ) :
    2.5 ≤ (scrollStep o sgn).radius ∧ (scrollStep o sgn).radius ≤ 50
      ∧ (scrollStep o sgn).pitch = o.pitch :=
  ⟨le_max_left _ _, max_le (by norm_num) (min_le_left _ _), rfl⟩

theorem orbit_preserved (evs : List OrbitEvent) :
    ∀ o : Orbit, orbitInBounds o → orbitInBounds (applyEvents o evs) := by
  induction evs with
  | nil => intro o h; simpa [applyEvents] using h
  | cons e rest ih =>
    intro o h
    obtain ⟨h1, h2, h3, h4⟩ := h
    cases e with
    | drag dx dy =>
      refine ih _ ?_
      obtain ⟨g1, g2, g3⟩ := dragStep_bounds o dx dy
      exact ⟨g1, g2, by rw [g3]; exact h3, by rw [g3]; exact h4⟩
    | scroll sgn =>
      refine ih _ ?_
      obtain ⟨g1, g2, g3⟩ := scrollStep_bounds o sgn
      exact ⟨by rw [g3]; exact h1, by rw [g3]; exact h2, g1, g2⟩

/-- C8: from the initial state (pitch 0.2, radius 8), after every finite
sequence of drag and scroll events the orbit state keeps pitch in
[−1.4, 1.4] and radius in [2.5, 50]; moreover every single drag update
clamps pitch into its bounds and every single scroll update clamps
radius into its bounds, whatever the incoming state. -/
theorem orbit_bounds_invariant :
    (∀ evs : List OrbitEvent, orbitInBounds (applyEvents orbitInit evs))
    ∧ (∀ (o : Orbit) (dx dy : ℚ),
        -1.4 ≤ (dragStep o dx dy).pitch ∧ (dragStep o dx dy).pitch ≤ 1.4)
    ∧ (∀ (o : Orbit) (sgn : ℚ),
        2.5 ≤ (scrollStep o sgn).radius ∧ (scrollStep o sgn).radius ≤ 50) :=
  ⟨fun evs => orbit_preserved evs orbitInit (by norm_num [orbitInBounds, orbitInit]),
   fun o dx dy => ⟨(dragStep_bounds o dx dy).1, (dragStep_bounds o dx dy).2.1⟩,
   fun o sgn => ⟨(scrollStep_bounds o sgn).1, (scrollStep_bounds o sgn).2.1⟩⟩

/-! ## Claim theorems: audio capture teardown -/

/-- C9: stopping capture — also when triggered by the capture track's
ended listener, which calls the same teardown — zeroes all four audio
levels and resets the beat EMA and debounce timer; wiring a new source
afterwards starts with those fields still zero. -/
theorem stop_capture_resets (s : AudioSys) :
    ((stopTabAudioCapture s).aBass = 0 ∧ (stopTabAudioCapture s).aMid = 0
      ∧ (stopTabAudioCapture s).aTre = 0 ∧ (stopTabAudioCapture s).aBeat = 0)
    ∧ ((stopTabAudioCapture s).ema = 0 ∧ (stopTabAudioCapture s).lastBeatT = 0)
    ∧ onCaptureTrackEnded s = stopTabAudioCapture s
    ∧ ((wireAnalyserFromStream (stopTabAudioCapture s)).aBass = 0
      ∧ (wireAnalyserFromStream (stopTabAudioCapture s)).aMid = 0
      ∧ (wireAnalyserFromStream (stopTabAudioCapture s)).aTre = 0
      ∧ (wireAnalyserFromStream (stopTabAudioCapture s)).aBeat = 0
      ∧ (wireAnalyserFromStream (stopTabAudioCapture s)).ema = 0
      ∧ (wireAnalyserFromStream (stopTabAudioCapture s)).lastBeatT = 0) :=
  ⟨⟨rfl, rfl, rfl, rfl⟩, ⟨rfl, rfl⟩, rfl, rfl, rfl, rfl, rfl, rfl, rfl⟩

end Fireball
